import Mathlib

/-!
Shallow embedding of `rosbag_to_csv/data_recorder_node.py`
(repository AUVSL/rosbag-to-csv).

The node keeps, per subscribed topic, the latest message received
(`latest_messages`, a Python dict guarded by a lock), a flat list of
configured fields (`self.fields`, each with an output `name`, an owning
`topic_name` and a dotted `field_path`), and an append-only list of rows
(`self.data`).  A timer calls `record_data`, which builds one dict row
per tick and appends it; `write_csv` exports the rows on shutdown.

Python values are modelled by `PyVal` (with `PyVal.none` for Python's
`None`), Python dicts by association lists with in-place overwrite
(`dictInsert`), and `getattr`'s `AttributeError` by `Option`.
-/

set_option autoImplicit false

/-- Model of a Python value as it appears in this node: `None`, scalars,
or a structured object with named attributes (a ROS message). -/
inductive PyVal where
  | none : PyVal
  | int : Int → PyVal
  | str : String → PyVal
  | bool : Bool → PyVal
  | obj : List (String × PyVal) → PyVal

/-- Python `value is None` test (`record_data` and `get_field_value`
branch on exactly this). -/
def PyVal.isNone : PyVal → Bool
  | PyVal.none => true
  | _ => false

/-- Python dict assignment `d[k] = v`: overwrite in place when the key is
present, otherwise append a new entry (insertion order is kept). -/
def dictInsert {α : Type} (k : String) (v : α) : List (String × α) → List (String × α)
  | [] => [(k, v)]
  | (k', v') :: rest => if k' = k then (k', v) :: rest else (k', v') :: dictInsert k v rest

/-- Python dict read `d.get(k)` / `d[k]`: the value stored under `k`, if any. -/
def dictLookup {α : Type} (k : String) : List (String × α) → Option α
  | [] => Option.none
  | (k', v) :: rest => if k' = k then some v else dictLookup k rest

/-- The keys of a dict, in insertion order (Python `d.keys()`). -/
def dictKeys {α : Type} (l : List (String × α)) : List String :=
  l.map Prod.fst

/-- Python `path.split('.')` specialised to the dot separator, as used by
`get_field_value` (`""` splits to `[""]`, like Python). -/
def splitDotAux : List Char → List Char → List String
  | [], acc => [String.mk acc.reverse]
  | c :: cs, acc =>
    if c = '.' then String.mk acc.reverse :: splitDotAux cs [] else splitDotAux cs (c :: acc)

def splitDot (s : String) : List String :=
  splitDotAux s.data []

/-- Python `getattr(value, attr)`: succeeds on an object that has the
attribute, raises `AttributeError` (modelled as `Option.none`) otherwise. -/
def getattrOpt : PyVal → String → Option PyVal
  | PyVal.obj l, a => dictLookup a l
  | _, _ => Option.none

/-- The `for attr in attrs: value = getattr(value, attr)` loop of
`get_field_value`, with `AttributeError` short-circuiting. -/
def walkAttrs : PyVal → List String → Option PyVal
  | v, [] => some v
  | v, a :: as =>
    match getattrOpt v a with
    | Option.none => Option.none
    | some v' => walkAttrs v' as

/-- The attribute walk of `get_field_value` over a dotted path. -/
def walkPath (msg : PyVal) (path : String) : Option PyVal :=
  walkAttrs msg (splitDot path)

/-- `DataRecorderNode.get_field_value`: walk the dotted path; on
`AttributeError` log and return Python `None` (the miss sentinel). -/
def get_field_value (msg : PyVal) (field_path : String) : PyVal :=
  match walkPath msg field_path with
  | some v => v
  | Option.none => PyVal.none

/-- `self.latest_messages`: topic name to latest message; topics are
registered with value `None` and updated to the received message. -/
abbrev Cache : Type := List (String × Option PyVal)

/-- `self.latest_messages.get(topic_name)` followed by the
`is not None` test: the latest message for a topic, if one ever arrived. -/
def getMsg (c : Cache) (t : String) : Option PyVal :=
  match dictLookup t c with
  | some (some m) => some m
  | _ => Option.none

/-- The write `self.latest_messages[topic_name] = msg` done by
`message_callback`. -/
def putMsg (t : String) (m : PyVal) (c : Cache) : Cache :=
  dictInsert t (some m) c

/-- The registration `self.latest_messages[topic_name] = None` done in
`__init__`. -/
def registerTopic (t : String) (c : Cache) : Cache :=
  dictInsert t Option.none c

/-- One entry of `self.fields`, as assembled in `__init__`. -/
structure FieldSpec where
  name : String
  topic_name : String
  field_path : String
deriving DecidableEq

/-- One row is a Python dict from output name to recorded value. -/
abbrev Row : Type := List (String × PyVal)

/-- The per-field body of the `record_data` loop: look up the topic's
latest message; if none ever arrived, or extraction returns `None`,
record `''`; otherwise record the extracted value. -/
def extractCell (cache : Cache) (f : FieldSpec) : PyVal :=
  match getMsg cache f.topic_name with
  | Option.none => PyVal.str ""
  | some msg =>
    let value := get_field_value msg f.field_path
    if value.isNone then PyVal.str "" else value

/-- The `for field in self.fields` loop of `record_data`, building the
row dict by repeated assignment. -/
def buildRow (cache : Cache) : List FieldSpec → Row → Row
  | [], row => row
  | f :: fs, row => buildRow cache fs (dictInsert f.name (extractCell cache f) row)

/-- The complete row built by one `record_data` tick. -/
def recordRow (fields : List FieldSpec) (cache : Cache) : Row :=
  buildRow cache fields []

/-- Log severities used by the node (`get_logger().error` / `.info`). -/
inductive LogLevel where
  | info : LogLevel
  | error : LogLevel
deriving DecidableEq

/-- One `fields` entry of a subscription in the YAML config. -/
structure SubFieldCfg where
  name : String
  field_path : String
deriving DecidableEq

/-- One `subscriptions` entry of the YAML config. -/
structure SubCfg where
  topic_name : String
  message_type : String
  fields : List SubFieldCfg
deriving DecidableEq

/-- The parsed configuration given to `__init__`: the subscription list
from the YAML file plus the `interval` parameter. -/
structure Config where
  subscriptions : List SubCfg
  interval : Rat
deriving DecidableEq

/-- `get_message`, the external message-type resolver: `__init__` treats
it as returning the resolved type or nothing. -/
abbrev Resolver : Type := String → Option String

/-- The mutable state of a `DataRecorderNode`. -/
structure NodeState where
  /-- The sequence of `create_subscription` calls made, in order:
  (topic name, resolved message type). -/
  subscriptions_created : List (String × String)
  /-- `self.recorded_subscriptions`: topic name to (message type, fields). -/
  recorded_subscriptions : List (String × (String × List SubFieldCfg))
  /-- `self.latest_messages`. -/
  latest_messages : Cache
  /-- `self.fields`. -/
  fields : List FieldSpec
  /-- `self.data`: the accumulated rows. -/
  data : List Row
  /-- The recording timer, holding its interval once created. -/
  timer : Option Rat
  /-- Severities of log messages emitted so far. -/
  logs : List LogLevel

/-- One iteration of the `for sub in config['subscriptions']` loop in
`__init__`: an unresolvable message type logs an error and `continue`s;
otherwise a subscription is created and the topic and fields recorded. -/
def initStep (res : Resolver) (acc : NodeState) (sub : SubCfg) : NodeState :=
  match res sub.message_type with
  | Option.none => { acc with logs := acc.logs ++ [LogLevel.error] }
  | some m =>
    { acc with
      subscriptions_created := acc.subscriptions_created ++ [(sub.topic_name, m)]
      recorded_subscriptions := dictInsert sub.topic_name (m, sub.fields) acc.recorded_subscriptions
      latest_messages := registerTopic sub.topic_name acc.latest_messages
      fields := acc.fields ++ sub.fields.map
        (fun fc => { name := fc.name, topic_name := sub.topic_name, field_path := fc.field_path }) }

/-- The subscription loop of `__init__`. -/
def initSubs (res : Resolver) : List SubCfg → NodeState → NodeState
  | [], acc => acc
  | sub :: rest, acc => initSubs res rest (initStep res acc sub)

/-- The empty state a node starts from before the subscription loop. -/
def emptyState : NodeState :=
  { subscriptions_created := []
    recorded_subscriptions := []
    latest_messages := []
    fields := []
    data := []
    timer := Option.none
    logs := [] }

/-- `DataRecorderNode.__init__` on an already-parsed configuration:
run the subscription loop, then create the timer.  No configuration
check can fail it, so it always yields a state. -/
def initNode (cfg : Config) (res : Resolver) : Option NodeState :=
  some { initSubs res cfg.subscriptions emptyState with timer := some cfg.interval }

/-- `DataRecorderNode.message_callback`: store the message as the
topic's latest under the lock. -/
def message_callback (st : NodeState) (topic_name : String) (msg : PyVal) : NodeState :=
  { st with latest_messages := putMsg topic_name msg st.latest_messages }

/-- `DataRecorderNode.record_data`: build one row from the current
caches and append it to `self.data`. -/
def record_data (st : NodeState) : NodeState :=
  { st with data := st.data ++ [recordRow st.fields st.latest_messages] }

/-- The CSV output: header line plus one line of cell values per row
(cells kept as values; the `csv` module stringifies them). -/
structure CsvOut where
  header : List String
  rows : List (List PyVal)

/-- `csv.DictWriter.writerow`: emit, for each configured column name in
order, the row dict's value under that name (`restval` `''` if absent). -/
def renderRow (field_names : List String) (row : Row) : List PyVal :=
  field_names.map (fun n => (dictLookup n row).getD (PyVal.str ""))

/-- `DataRecorderNode.write_csv`: with no data, log info and write
nothing; otherwise write the header and every accumulated row in order,
then log info. -/
def write_csv (st : NodeState) : Option CsvOut × LogLevel :=
  if st.data.isEmpty then (Option.none, LogLevel.info)
  else
    (some { header := st.fields.map FieldSpec.name
            rows := st.data.map (renderRow (st.fields.map FieldSpec.name)) },
     LogLevel.info)

/-- A sequence of `message_callback` deliveries applied in order. -/
def applyCallbacks (st : NodeState) (ops : List (String × PyVal)) : NodeState :=
  ops.foldl (fun s p => message_callback s p.1 p.2) st

/-- The same deliveries viewed on the cache alone. -/
def applyPuts (ops : List (String × PyVal)) (c : Cache) : Cache :=
  ops.foldl (fun c p => putMsg p.1 p.2 c) c

/-! Concrete values used by counterexamples and witnesses. -/

/-- A message whose field `a` legitimately holds Python `None`. -/
def noneMsg : PyVal := PyVal.obj [("a", PyVal.none)]

def noneCache : Cache := putMsg "t" noneMsg []

def noneFields : List FieldSpec := [{ name := "a", topic_name := "t", field_path := "a" }]

/-- A message whose field `x` is a nested object, not a leaf. -/
def nestMsg : PyVal := PyVal.obj [("x", PyVal.obj [("y", PyVal.int 5)])]

def nestCache : Cache := putMsg "t" nestMsg []

def nestFields : List FieldSpec := [{ name := "col", topic_name := "t", field_path := "x" }]

/-- Two distinct output names over `nestMsg`. -/
def twoFields : List FieldSpec :=
  [{ name := "colx", topic_name := "t", field_path := "x" },
   { name := "coly", topic_name := "t", field_path := "x.y" }]

/-- Two FieldSpecs sharing the output name `col`. -/
def dupFields : List FieldSpec :=
  [{ name := "col", topic_name := "t", field_path := "a" },
   { name := "col", topic_name := "t", field_path := "b" }]

def dupMsg : PyVal := PyVal.obj [("a", PyVal.int 1), ("b", PyVal.int 2)]

def dupCache : Cache := putMsg "t" dupMsg []

/-- A resolver that resolves every message type. -/
def resAll : Resolver := fun s => some s

/-- A configuration whose interval parameter is zero. -/
def cfgZero : Config :=
  { subscriptions :=
      [{ topic_name := "t", message_type := "std_msgs/msg/String",
         fields := [{ name := "col", field_path := "data" }] }]
    interval := 0 }

/-- A resolver that only resolves the type `good/Type`. -/
def resGood : Resolver := fun s => if s = "good/Type" then some s else Option.none

/-- A configuration with one unresolvable and one resolvable source. -/
def cfgMixed : Config :=
  { subscriptions :=
      [{ topic_name := "bad_topic", message_type := "bad/Type",
         fields := [{ name := "c1", field_path := "x" }] },
       { topic_name := "good_topic", message_type := "good/Type",
         fields := [{ name := "c2", field_path := "y" }] }]
    interval := 1 }

/-- A node state with two configured fields, a cached message and no rows. -/
def stBase : NodeState :=
  { emptyState with fields := twoFields, latest_messages := nestCache, timer := some 1 }

/-- `stBase` after one completed tick. -/
def stEx : NodeState := record_data stBase

/-! Helper lemmas about the dict operations. -/

theorem dictLookup_insert_self {α : Type} (k : String) (v : α) (l : List (String × α)) :
    dictLookup k (dictInsert k v l) = some v := by
  induction l with
  | nil => simp [dictInsert, dictLookup]
  | cons p rest ih =>
    obtain ⟨k', v'⟩ := p
    by_cases h : k' = k
    · simp [dictInsert, dictLookup, h]
    · simp [dictInsert, dictLookup, h, ih]

theorem dictKeys_nil {α : Type} : dictKeys ([] : List (String × α)) = [] := rfl

theorem dictKeys_cons {α : Type} (k : String) (v : α) (l : List (String × α)) :
    dictKeys ((k, v) :: l) = k :: dictKeys l := rfl

theorem dictLookup_insert_ne {α : Type} {k k' : String} (h : k' ≠ k) (v : α)
    (l : List (String × α)) :
    dictLookup k (dictInsert k' v l) = dictLookup k l := by
  induction l with
  | nil => simp [dictInsert, dictLookup, h]
  | cons p rest ih =>
    obtain ⟨k'', v''⟩ := p
    by_cases h1 : k'' = k'
    · subst h1
      simp [dictInsert, dictLookup, h]
    · simp [dictInsert, dictLookup, h1, ih]

theorem mem_dictKeys_insert {α : Type} (k k' : String) (v : α) (l : List (String × α)) :
    k ∈ dictKeys (dictInsert k' v l) ↔ k = k' ∨ k ∈ dictKeys l := by
  induction l with
  | nil => simp [dictInsert, dictKeys, eq_comm]
  | cons p rest ih =>
    obtain ⟨k'', v''⟩ := p
    by_cases h : k'' = k'
    · subst h
      simp [dictInsert, dictKeys, eq_comm]
    · simp [dictInsert, dictKeys, h] at ih ⊢
      tauto

theorem dictKeys_insert_of_mem {α : Type} (k' : String) (v : α) :
    ∀ l : List (String × α), k' ∈ dictKeys l → dictKeys (dictInsert k' v l) = dictKeys l
  | [], h => by simp [dictKeys] at h
  | (k'', v'') :: rest, h => by
    by_cases h1 : k'' = k'
    · simp [dictInsert, dictKeys, h1]
    · have h2 : k' ∈ dictKeys rest := by
        rw [dictKeys_cons, List.mem_cons] at h
        exact h.resolve_left fun he => h1 he.symm
      simp [dictInsert, h1, dictKeys_cons, dictKeys_insert_of_mem k' v rest h2]

theorem dictKeys_insert_of_not_mem {α : Type} (k' : String) (v : α) :
    ∀ l : List (String × α), k' ∉ dictKeys l → dictKeys (dictInsert k' v l) = dictKeys l ++ [k']
  | [], _ => by simp [dictInsert, dictKeys]
  | (k'', v'') :: rest, h => by
    have h1 : k'' ≠ k' := by
      intro he
      exact h (by rw [dictKeys_cons, he]; exact List.mem_cons_self k' _)
    have h2 : k' ∉ dictKeys rest := by
      intro hm
      exact h (by rw [dictKeys_cons]; exact List.mem_cons_of_mem _ hm)
    simp [dictInsert, h1, dictKeys_cons, dictKeys_insert_of_not_mem k' v rest h2]

/-! Helper lemmas about the row built by `record_data`. -/

theorem find?_append_eq {α : Type} (p : α → Bool) (l₁ l₂ : List α) :
    (l₁ ++ l₂).find? p =
      match l₁.find? p with
      | some a => some a
      | Option.none => l₂.find? p := by
  induction l₁ with
  | nil => simp
  | cons a rest ih =>
    by_cases h : p a
    · simp [List.find?_cons_of_pos _ h]
    · simp only [List.cons_append, List.find?_cons_of_neg _ h, ih]

theorem mem_dictKeys_buildRow (cache : Cache) :
    ∀ (fs : List FieldSpec) (row : Row) (k : String),
      k ∈ dictKeys (buildRow cache fs row) ↔ k ∈ dictKeys row ∨ k ∈ fs.map FieldSpec.name
  | [], row, k => by simp [buildRow]
  | f :: fs, row, k => by
    rw [buildRow, mem_dictKeys_buildRow cache fs _ k, mem_dictKeys_insert]
    simp
    tauto

theorem dictKeys_buildRow_nodup (cache : Cache) :
    ∀ (fs : List FieldSpec) (row : Row),
      (dictKeys row ++ fs.map FieldSpec.name).Nodup →
      dictKeys (buildRow cache fs row) = dictKeys row ++ fs.map FieldSpec.name
  | [], row, _ => by simp [buildRow]
  | f :: fs, row, h => by
    have hn : f.name ∉ dictKeys row := by
      rw [List.nodup_append] at h
      intro hm
      exact h.2.2 hm (by simp)
    have hkeys := dictKeys_insert_of_not_mem f.name (extractCell cache f) row hn
    have hassoc : (dictKeys row ++ [f.name]) ++ fs.map FieldSpec.name
        = dictKeys row ++ (f :: fs).map FieldSpec.name := by
      simp
    rw [buildRow, dictKeys_buildRow_nodup cache fs _ (by rw [hkeys, hassoc]; exact h), hkeys,
      hassoc]

theorem dictLookup_buildRow (cache : Cache) :
    ∀ (fs : List FieldSpec) (row : Row) (k : String),
      dictLookup k (buildRow cache fs row) =
        match fs.reverse.find? (fun g => g.name == k) with
        | some f => some (extractCell cache f)
        | Option.none => dictLookup k row
  | [], row, k => by simp [buildRow]
  | f :: fs, row, k => by
    rw [buildRow, dictLookup_buildRow cache fs _ k, List.reverse_cons,
      find?_append_eq (fun g => g.name == k) fs.reverse [f]]
    cases hfind : fs.reverse.find? (fun g => g.name == k) with
    | some g => rfl
    | none =>
      by_cases hk : f.name = k
      · simp [List.find?, hk, hfind, dictLookup_insert_self]
      · have hb : (f.name == k) = false := beq_eq_false_iff_ne.mpr hk
        simp [List.find?, hb, hfind, dictLookup_insert_ne hk (extractCell cache f) row]

/-! Helper lemmas about the latest-message cache. -/

theorem getMsg_putMsg_self (t : String) (m : PyVal) (c : Cache) :
    getMsg (putMsg t m c) t = some m := by
  simp [getMsg, putMsg, dictLookup_insert_self]

theorem getMsg_putMsg_ne {K t : String} (h : t ≠ K) (m : PyVal) (c : Cache) :
    getMsg (putMsg t m c) K = getMsg c K := by
  simp [getMsg, putMsg, dictLookup_insert_ne h]

theorem getMsg_applyPuts :
    ∀ (ops : List (String × PyVal)) (c : Cache) (K : String),
      getMsg (applyPuts ops c) K =
        match ops.reverse.find? (fun p => p.1 == K) with
        | some p => some p.2
        | Option.none => getMsg c K
  | [], c, K => by simp [applyPuts]
  | p :: ops, c, K => by
    have hstep : applyPuts (p :: ops) c = applyPuts ops (putMsg p.1 p.2 c) := rfl
    rw [hstep, getMsg_applyPuts ops _ K, List.reverse_cons,
      find?_append_eq (fun q => q.1 == K) ops.reverse [p]]
    cases hfind : ops.reverse.find? (fun q => q.1 == K) with
    | some q => rfl
    | none =>
      by_cases hk : p.1 = K
      · simp [List.find?, hk, hfind, getMsg_putMsg_self]
      · have hb : (p.1 == K) = false := beq_eq_false_iff_ne.mpr hk
        simp [List.find?, hb, hfind, getMsg_putMsg_ne hk p.2 c]

theorem applyCallbacks_latest :
    ∀ (ops : List (String × PyVal)) (st : NodeState),
      (applyCallbacks st ops).latest_messages = applyPuts ops st.latest_messages
  | [], st => rfl
  | p :: ops, st => by
    have hstep : applyCallbacks st (p :: ops) = applyCallbacks (message_callback st p.1 p.2) ops :=
      rfl
    rw [hstep, applyCallbacks_latest ops _]
    rfl

/-! Helper lemma about the subscription loop of `__init__`. -/

theorem initSubs_spec (res : Resolver) :
    ∀ (subs : List SubCfg) (acc : NodeState),
      (initSubs res subs acc).subscriptions_created
          = acc.subscriptions_created
            ++ subs.filterMap (fun s => (res s.message_type).map (fun m => (s.topic_name, m)))
        ∧ (initSubs res subs acc).logs
          = acc.logs ++ (subs.filter (fun s => (res s.message_type).isNone)).map
              (fun _ => LogLevel.error)
        ∧ (initSubs res subs acc).timer = acc.timer
  | [], acc => by simp [initSubs]
  | sub :: rest, acc => by
    obtain ⟨ih1, ih2, ih3⟩ := initSubs_spec res rest (initStep res acc sub)
    cases hres : res sub.message_type with
    | none =>
      refine ⟨?_, ?_, ?_⟩
      · rw [initSubs, ih1]
        simp [initStep, hres]
      · rw [initSubs, ih2]
        simp [initStep, hres]
      · rw [initSubs, ih3]
        simp [initStep, hres]
    | some m =>
      refine ⟨?_, ?_, ?_⟩
      · rw [initSubs, ih1]
        simp [initStep, hres]
      · rw [initSubs, ih2]
        simp [initStep, hres]
      · rw [initSubs, ih3]
        simp [initStep, hres]

/-! Claims. -/

/-- Claim C1: every row appended by a `record_data` tick has exactly the
configured output names as its key set, for every field configuration and
every cache state (regardless of which sources have ever received an
update); and when the configured names are distinct — as the spec's data
model requires of valid configurations — the row has exactly one entry
per configured `FieldSpec`, in configuration order. -/
theorem c1_row_key_set (fields : List FieldSpec) (cache : Cache) :
    (∀ k, k ∈ dictKeys (recordRow fields cache) ↔ k ∈ fields.map FieldSpec.name)
    ∧ ((fields.map FieldSpec.name).Nodup →
        dictKeys (recordRow fields cache) = fields.map FieldSpec.name) := by
  constructor
  · intro k
    have h := mem_dictKeys_buildRow cache fields [] k
    rw [recordRow, h]
    simp [dictKeys]
  · intro h
    have h2 := dictKeys_buildRow_nodup cache fields [] (by simpa [dictKeys] using h)
    rw [recordRow, h2]
    simp [dictKeys]

/-- Claim C1 witness: with two distinct configured names the row keys are
exactly those names. -/
theorem c1_row_key_set_witness :
    dictKeys (recordRow twoFields nestCache) = ["colx", "coly"] :=
  ((c1_row_key_set twoFields nestCache).2 (by decide)).trans rfl

/-- Claim C2: each completed `record_data` call appends exactly one row,
unconditionally, so after n completed calls the row store has grown by
exactly n rows (in particular n rows from a fresh node), whatever the
cache holds — including when every field is the empty placeholder. -/
theorem c2_tick_appends_one_row (st : NodeState) (n : Nat) :
    (record_data st).data = st.data ++ [recordRow st.fields st.latest_messages]
    ∧ (record_data^[n] st).data.length = st.data.length + n := by
  refine ⟨rfl, ?_⟩
  induction n with
  | zero => simp
  | succ m ih =>
    rw [Function.iterate_succ_apply']
    have hrec : (record_data (record_data^[m] st)).data.length
        = (record_data^[m] st).data.length + 1 := by
      simp [record_data]
    rw [hrec, ih]
    omega

/-- Claim C3 counterexample: the miss sentinel of `get_field_value` is
Python `None`, so a field legitimately holding `None` is
indistinguishable from a miss — the path resolves successfully to `None`
(first conjunct), yet `get_field_value` returns exactly what it returns
for a failed extraction on an empty object, and `record_data` records the
empty placeholder for it. -/
theorem c3_sentinel_counterexample :
    walkPath noneMsg "a" = some PyVal.none
    ∧ get_field_value noneMsg "a" = PyVal.none
    ∧ get_field_value (PyVal.obj []) "a" = PyVal.none
    ∧ dictLookup "a" (recordRow noneFields noneCache) = some (PyVal.str "") :=
  ⟨rfl, rfl, rfl, rfl⟩

/-- Claim C3 (amended): extraction never propagates an error — a failed
attribute walk is caught and yields the `None` sentinel, a successful
walk yields the resolved value — and the sentinel is distinct from a
legitimate zero, false, and empty-string value; it is however not
distinct from a field legitimately holding `None`, which is likewise
recorded as the empty placeholder. -/
theorem c3_sentinel_amended (msg : PyVal) (path : String) :
    (walkPath msg path = Option.none → get_field_value msg path = PyVal.none)
    ∧ (∀ v, walkPath msg path = some v → get_field_value msg path = v)
    ∧ PyVal.none ≠ PyVal.int 0 ∧ PyVal.none ≠ PyVal.bool false ∧ PyVal.none ≠ PyVal.str "" := by
  refine ⟨?_, ?_, ?_, ?_, ?_⟩
  · intro h
    simp [get_field_value, h]
  · intro v h
    simp [get_field_value, h]
  · intro h
    exact PyVal.noConfusion h
  · intro h
    exact PyVal.noConfusion h
  · intro h
    exact PyVal.noConfusion h

/-- Claim C3 amended witness: the miss branch on an attribute-less object
and the success branch on a real leaf. -/
theorem c3_sentinel_amended_witness :
    get_field_value (PyVal.obj []) "a" = PyVal.none
    ∧ get_field_value noneMsg "a" = PyVal.none :=
  ⟨(c3_sentinel_amended (PyVal.obj []) "a").1 rfl,
   (c3_sentinel_amended noneMsg "a").2.1 PyVal.none rfl⟩

/-- Claim C4 counterexample: a path that resolves to a nested object is
not treated as a miss — `get_field_value` returns the nested object
itself and `record_data` stores it in the row, not the empty
placeholder. -/
theorem c4_nonleaf_counterexample :
    get_field_value nestMsg "x" = PyVal.obj [("y", PyVal.int 5)]
    ∧ dictLookup "col" (recordRow nestFields nestCache) = some (PyVal.obj [("y", PyVal.int 5)])
    ∧ PyVal.obj [("y", PyVal.int 5)] ≠ PyVal.str "" :=
  ⟨rfl, rfl, fun h => PyVal.noConfusion h⟩

/-- Claim C4 (amended): whenever the dotted path resolves to any value
other than `None` — scalar or nested object alike — `record_data`
records that resolved value in the row; only an unresolvable path (or a
resolved `None`) yields the empty placeholder. -/
theorem c4_nonleaf_amended (cache : Cache) (f : FieldSpec) (msg v : PyVal)
    (h1 : getMsg cache f.topic_name = some msg)
    (h2 : walkPath msg f.field_path = some v)
    (h3 : v.isNone = false) :
    extractCell cache f = v ∧ dictLookup f.name (recordRow [f] cache) = some v := by
  have hc : extractCell cache f = v := by
    simp [extractCell, h1, get_field_value, h2, h3]
  exact ⟨hc, by simp [recordRow, buildRow, hc, dictLookup_insert_self]⟩

/-- Claim C4 amended witness: the nested object resolved by path `x` is
recorded as the row value. -/
theorem c4_nonleaf_amended_witness :
    extractCell nestCache { name := "col", topic_name := "t", field_path := "x" }
      = PyVal.obj [("y", PyVal.int 5)] :=
  (c4_nonleaf_amended nestCache { name := "col", topic_name := "t", field_path := "x" }
    nestMsg (PyVal.obj [("y", PyVal.int 5)]) rfl rfl rfl).1

/-- Claim C5 counterexample: with the interval parameter equal to zero,
`__init__` still succeeds — it creates the subscription and then the
timer with that non-positive interval; nothing rejects the
configuration. -/
theorem c5_interval_counterexample :
    cfgZero.interval ≤ 0
    ∧ ∃ st, initNode cfgZero resAll = some st
        ∧ st.timer = some 0
        ∧ st.subscriptions_created = [("t", "std_msgs/msg/String")] :=
  ⟨le_refl 0, ⟨_, rfl, rfl, rfl⟩⟩

/-- Claim C5 (amended): `__init__` performs no validation of the interval
parameter: for every configuration — any interval value, zero and
negative included — and every resolver, construction succeeds and the
timer is created with exactly the configured interval. -/
theorem c5_interval_amended (cfg : Config) (res : Resolver) :
    ∃ st, initNode cfg res = some st ∧ st.timer = some cfg.interval :=
  ⟨_, rfl, rfl⟩

/-- Claim C6 counterexample: with the first source's message type
unresolvable and the second resolvable, `__init__` does not abort — it
logs one error, skips the bad source, creates the subscription for the
remaining source and still creates the timer. -/
theorem c6_unresolvable_counterexample :
    ∃ st, initNode cfgMixed resGood = some st
      ∧ st.subscriptions_created = [("good_topic", "good/Type")]
      ∧ st.timer = some 1
      ∧ st.logs = [LogLevel.error]
      ∧ st.fields = [{ name := "c2", topic_name := "good_topic", field_path := "y" }] :=
  ⟨_, rfl, rfl, rfl, rfl, rfl⟩

/-- Claim C6 (amended): an unresolvable source descriptor is not fatal:
`__init__` logs an error per unresolvable message type and continues,
creating exactly the subscriptions of the resolvable sources (in
configuration order) and, afterwards, the timer. -/
theorem c6_unresolvable_amended (cfg : Config) (res : Resolver) :
    ∃ st, initNode cfg res = some st
      ∧ st.subscriptions_created
          = cfg.subscriptions.filterMap
              (fun s => (res s.message_type).map (fun m => (s.topic_name, m)))
      ∧ st.logs = (cfg.subscriptions.filter (fun s => (res s.message_type).isNone)).map
          (fun _ => LogLevel.error)
      ∧ st.timer = some cfg.interval := by
  obtain ⟨h1, h2, h3⟩ := initSubs_spec res cfg.subscriptions emptyState
  exact ⟨_, rfl, h1, h2, rfl⟩

/-- Claim C7: a read of the latest-message cache observes the value of
the most recent `message_callback` for that topic, independent of
callbacks on other topics, and a topic that never received an update
reads as the explicit no-value-yet marker (both the registered-`None`
entry and an absent entry), never as a failure. -/
theorem c7_latest_message_per_key (st : NodeState) (ops : List (String × PyVal)) (K : String)
    (c : Cache) :
    getMsg (applyCallbacks st ops).latest_messages K
        = (match ops.reverse.find? (fun p => p.1 == K) with
           | some p => some p.2
           | Option.none => getMsg st.latest_messages K)
    ∧ getMsg (registerTopic K c) K = Option.none
    ∧ getMsg ([] : Cache) K = Option.none := by
  refine ⟨?_, ?_, rfl⟩
  · rw [applyCallbacks_latest ops st]
    exact getMsg_applyPuts ops st.latest_messages K
  · simp [getMsg, registerTopic, dictLookup_insert_self]

/-- Claim C8: `write_csv` exports the accumulated rows exactly, in strict
append order, with no reordering, omission, or duplication; and after one
further tick the export is the previous row sequence extended by the new
row at the end. -/
theorem c8_export_order (st : NodeState) :
    (st.data.isEmpty = false →
      (write_csv st).1
        = some { header := st.fields.map FieldSpec.name
                 rows := st.data.map (renderRow (st.fields.map FieldSpec.name)) })
    ∧ (write_csv (record_data st)).1
        = some { header := st.fields.map FieldSpec.name
                 rows := st.data.map (renderRow (st.fields.map FieldSpec.name))
                   ++ [renderRow (st.fields.map FieldSpec.name)
                        (recordRow st.fields st.latest_messages)] } := by
  constructor
  · intro h
    simp [write_csv, h]
  · have hne : ((record_data st).data).isEmpty = false := by
      cases hd : st.data with
      | nil => simp [record_data, hd]
      | cons r rs => simp [record_data, hd]
    simp [write_csv, hne, record_data]

/-- Claim C8 witness: exporting a state with one accumulated row yields
exactly that row. -/
theorem c8_export_order_witness :
    (write_csv stEx).1
      = some { header := stEx.fields.map FieldSpec.name
               rows := stEx.data.map (renderRow (stEx.fields.map FieldSpec.name)) } :=
  (c8_export_order stEx).1 rfl

/-- Claim C9: with no accumulated rows, `write_csv` produces no output
at all — not a header-only file — and reports the condition at info
severity, not as an error. -/
theorem c9_empty_export (st : NodeState) (h : st.data = []) :
    write_csv st = (Option.none, LogLevel.info) := by
  simp [write_csv, h]

/-- Claim C9 witness: a node that has completed zero ticks exports
nothing. -/
theorem c9_empty_export_witness :
    write_csv stBase = (Option.none, LogLevel.info) :=
  c9_empty_export stBase rfl

/-- Claim C10: duplicate output names are not rejected — construction
always succeeds — and the row dict keeps only the value of the last
`FieldSpec` carrying the name (later assignment overwrites the earlier
one); `write_csv` then emits that single surviving value at every column
position bearing the duplicated name. -/
theorem c10_duplicate_output_names :
    (∀ (cfg : Config) (res : Resolver), ∃ st, initNode cfg res = some st)
    ∧ ∀ (fields : List FieldSpec) (cache : Cache) (k : String) (f : FieldSpec),
        fields.reverse.find? (fun g => g.name == k) = some f →
        dictLookup k (recordRow fields cache) = some (extractCell cache f)
        ∧ ∀ i : Nat, (fields.map FieldSpec.name)[i]? = some k →
            (renderRow (fields.map FieldSpec.name) (recordRow fields cache))[i]?
              = some (extractCell cache f) := by
  constructor
  · intro cfg res
    exact ⟨_, rfl⟩
  · intro fields cache k f hf
    have hl : dictLookup k (recordRow fields cache) = some (extractCell cache f) := by
      have h := dictLookup_buildRow cache fields [] k
      rw [recordRow, h, hf]
    refine ⟨hl, ?_⟩
    intro i hi
    rw [renderRow, List.getElem?_map, hi]
    simp [hl]

/-- Claim C10 witness: with two FieldSpecs both named `col`, the row
keeps the second one's value (`b`, extracted as `2`), and the first CSV
column position named `col` emits it. -/
theorem c10_duplicate_output_names_witness :
    dictLookup "col" (recordRow dupFields dupCache)
        = some (extractCell dupCache { name := "col", topic_name := "t", field_path := "b" })
    ∧ (renderRow (dupFields.map FieldSpec.name) (recordRow dupFields dupCache))[0]?
        = some (extractCell dupCache { name := "col", topic_name := "t", field_path := "b" })
    ∧ extractCell dupCache { name := "col", topic_name := "t", field_path := "b" } = PyVal.int 2 := by
  have h := c10_duplicate_output_names.2 dupFields dupCache "col"
      { name := "col", topic_name := "t", field_path := "b" } rfl
  exact ⟨h.1, h.2 0 rfl, rfl⟩
